import Mathlib

/-!
Verification of `protoc-gen-route` (package `template`, file
`generate/template/template.go`) against its natural-language
specification.

The Go source is shallowly embedded:

* Go structs `ServiceDesc`, `MethodDesc`, `PackageDesc` become Lean
  structures with the same field names.
* A Go `map[string]V` that the code only builds by repeated insertion,
  looks up, and takes the size of is embedded as an association list
  with replace-on-insert semantics (`insertAssoc`); this is
  extensionally faithful to the Go map.
* The `text/template` engine is external to the repository (the spec
  treats it as a black box "render(model) -> text"), so it is a
  parameter: a `TemplateEngine` bundles a deterministic `parse` and
  `exec` function, each able to fail.
* The package-level mutable variable `routeTemplate` becomes an
  explicit argument/result, and the pointer-receiver mutation performed
  by `ServiceDesc.Execute` is returned as the `svc` field of the
  result.
* The model-builder side of the repository (annotation extraction,
  name disambiguation, grouping) is not among the provided source
  files; those definitions are modelled from the spec and marked as
  such in their doc comments.
-/

namespace Route

/-- Insert into an association list with Go-map semantics: replace the
binding of the key when present, otherwise append a fresh binding. -/
def insertAssoc {α : Type} (k : String) (v : α) : List (String × α) → List (String × α)
  | [] => [(k, v)]
  | (k', v') :: rest => if k' = k then (k, v) :: rest else (k', v') :: insertAssoc k v rest

/-- Go struct `PackageDesc` (template.go lines 60-65). -/
structure PackageDesc where
  RequestType : String
  ResponseType : String
  ExtraDataType : String
  NewExtraDataFunc : String
deriving Repr, DecidableEq

/-- Go struct `MethodDesc` (template.go lines 48-58). `Extra` is a Go
`map[string]string`, embedded as an association list. -/
structure MethodDesc where
  Name : String
  OriginalName : String
  Num : Int
  Request : String
  Reply : String
  Comment : String
  Extra : List (String × String)
deriving Repr, DecidableEq

/-- Go struct `ServiceDesc` (template.go lines 36-46). `MethodSets` is a
Go `map[string]*MethodDesc`, embedded as an association list. -/
structure ServiceDesc where
  OptionsKey : String
  ServiceType : String
  ServiceName : String
  Methods : List MethodDesc
  MethodSets : List (String × MethodDesc)
  Package : PackageDesc
deriving Repr, DecidableEq

/-- The loop of `ServiceDesc.Execute` (template.go lines 68-71):
`s.MethodSets = make(map[string]*MethodDesc)` followed by
`for _, m := range s.Methods { s.MethodSets[m.Name] = m }`. -/
def buildMethodSets (methods : List MethodDesc) : List (String × MethodDesc) :=
  methods.foldl (fun acc m => insertAssoc m.Name m acc) []

/-- The external `text/template` engine, the black box the spec calls
"render(model) -> text": `parse` embeds `template.New("route").Parse`
(producing a parsed-template value or an error message) and `exec`
embeds `(*Template).Execute` on a `ServiceDesc` (producing the
rendered text or an error message). -/
structure TemplateEngine where
  parse : String → Except String String
  exec : String → ServiceDesc → Except String String

/-- Result of `ServiceDesc.Execute`: the receiver after the call (the
Go method mutates `s.MethodSets` through the pointer receiver), the
returned string and the returned error (`none` embeds nil). -/
structure ExecuteResult where
  svc : ServiceDesc
  text : String
  err : Option String
deriving Repr

/-- Go method `ServiceDesc.Execute` (template.go lines 67-82), with the
package variable `routeTemplate` passed explicitly and the engine as a
parameter. -/
def ServiceDesc.Execute (eng : TemplateEngine) (routeTemplate : String)
    (s : ServiceDesc) : ExecuteResult :=
  let s1 := { s with MethodSets := buildMethodSets s.Methods }
  match eng.parse routeTemplate with
  | .error e => { svc := s1, text := "", err := some e }
  | .ok tmpl =>
    match eng.exec tmpl s1 with
    | .error e => { svc := s1, text := "", err := some e }
    | .ok out => { svc := s1, text := out, err := none }

/-- Go function `ReplaceTemplateIfNeed` (template.go lines 84-93), with
`os.ReadFile` abstracted as `fs` (path to contents-or-error) and the
package variable `routeTemplate` passed and returned explicitly;
the second component embeds the returned error (`none` is nil). -/
def ReplaceTemplateIfNeed (fs : String → Except String String) (path : String)
    (routeTemplate : String) : String × Option String :=
  if path ≠ "" then
    match fs path with
    | .error e => (routeTemplate, some e)
    | .ok raw => (raw, none)
  else (routeTemplate, none)

/-- Modelled from the spec: the per-method custom annotation block
(`key: string` plus a repeated, order-preserving `extra` key/value
list) that the Annotation Extractor reads; the extractor's source is
not among the provided files. -/
structure Annotation where
  key : String
  extra : List (String × String)
deriving Repr, DecidableEq

/-- Modelled from the spec: one rpc method node of the descriptor tree
(local name, input/output message types, leading comment, and
zero-or-one annotation block); the descriptor-walking source is not
among the provided files. -/
structure Method where
  name : String
  input : String
  output : String
  comment : String
  annotation : Option Annotation
deriving Repr, DecidableEq

/-- Modelled from the spec: one service node (short identifier,
fully qualified identifier, methods in declaration order). -/
structure Service where
  name : String
  fullName : String
  methods : List Method
deriving Repr, DecidableEq

/-- Modelled from the spec: one interface-definition file, a list of
services in declaration order. -/
structure DescFile where
  services : List Service
deriving Repr, DecidableEq

/-- Modelled from the spec: the Annotation Extractor,
`extract(method) -> Option (routingKey, extras)`. Absent annotation is
"no match"; a present block with an empty `key` is likewise treated as
unmatched, never grouped under the empty key. -/
def extract (m : Method) : Option (String × List (String × String)) :=
  match m.annotation with
  | none => none
  | some a => if a.key = "" then none else some (a.key, a.extra)

/-- Modelled from the spec: the Name Disambiguator,
`assign(candidateName) -> (originalName, dedupNumber)`, one monotonic
counter map keyed by candidate name, scoped to a generation run. -/
def assign (st : List (String × Int)) (cand : String) : Int × List (String × Int) :=
  let n := ((st.lookup cand).getD 0)
  (n, insertAssoc cand (n + 1) st)

/-- Runs the Name Disambiguator over a sequence of requests starting
from counter state `st`, returning the dedup numbers in order. -/
def assignAll (st : List (String × Int)) : List String → List Int
  | [] => []
  | c :: cs =>
    let r := assign st c
    r.1 :: assignAll r.2 cs

/-- Modelled from the spec: Model Builder step 3 — construct one
`MethodDesc` from a matched method, its assigned dedup number, and its
extracted extras (folded into the `Extra` mapping in declaration
order, later duplicate keys overwriting earlier ones). -/
def toMethodDesc (svc : Service) (num : Int) (m : Method)
    (extras : List (String × String)) : MethodDesc :=
  { Name := m.name
    OriginalName := svc.name ++ m.name
    Num := num
    Request := m.input
    Reply := m.output
    Comment := m.comment
    Extra := extras.foldl (fun acc p => insertAssoc p.1 p.2 acc) [] }

/-- Modelled from the spec: the Model Builder's inner loop over one
service's methods in declaration order — extract the annotation, skip
the method unless its routing key equals the target key, otherwise
synthesize the candidate name, consult the Name Disambiguator, and
emit a `MethodDesc`; the counter state is threaded through. -/
def buildMethods (k : String) (svc : Service) (st : List (String × Int)) :
    List Method → List MethodDesc × List (String × Int)
  | [] => ([], st)
  | m :: ms =>
    match extract m with
    | none => buildMethods k svc st ms
    | some (key, extras) =>
      if key = k then
        let r := assign st (svc.name ++ m.name)
        let rest := buildMethods k svc r.2 ms
        (toMethodDesc svc r.1 m extras :: rest.1, rest.2)
      else buildMethods k svc st ms

/-- Modelled from the spec: Model Builder steps 4-6 for one service — a
service with at least one matched method yields exactly one
`ServiceDesc` (methods in declaration order, `MethodSets` rebuilt from
`Methods`, the shared `PackageDesc` attached); a service with zero
matched methods yields none. -/
def buildService (k : String) (pkg : PackageDesc) (st : List (String × Int))
    (svc : Service) : Option ServiceDesc × List (String × Int) :=
  let r := buildMethods k svc st svc.methods
  if r.1.isEmpty then (none, r.2)
  else
    (some { OptionsKey := k
            ServiceType := svc.name
            ServiceName := svc.fullName
            Methods := r.1
            MethodSets := buildMethodSets r.1
            Package := pkg }, r.2)

/-- Modelled from the spec: the Model Builder's walk over the services
of the descriptor set in declaration order, threading the counter. -/
def buildServices (k : String) (pkg : PackageDesc) (st : List (String × Int)) :
    List Service → List ServiceDesc × List (String × Int)
  | [] => ([], st)
  | svc :: rest =>
    let r := buildService k pkg st svc
    let r' := buildServices k pkg r.2 rest
    match r.1 with
    | none => r'
    | some sd => (sd :: r'.1, r'.2)

/-- Modelled from the spec: the Model Builder,
`build(descriptorSet, routingKey, packageConfig) -> ServiceDesc list`,
walking every file then every service in declaration order with a
fresh per-run counter. -/
def build (ds : List DescFile) (k : String) (pkg : PackageDesc) : List ServiceDesc :=
  (buildServices k pkg [] (ds.flatMap (fun f => f.services))).1

/-- All method nodes of a descriptor set, in declaration order. -/
def allMethods (ds : List DescFile) : List Method :=
  (ds.flatMap (fun f => f.services)).flatMap (fun svc => svc.methods)

/-- Whether a method's extracted annotation key equals the target
routing key (false as well when the annotation is absent or its key is
empty, since `extract` then yields no match). -/
def matchesKey (k : String) (m : Method) : Bool :=
  match extract m with
  | some (key, _) => key == k
  | none => false

/-- The last element of `methods` bearing the name `n`, if any — the
specification value of a Go-map index built by insertion in list
order, where a later binding for the same key overwrites an earlier
one. -/
def lastWithName (methods : List MethodDesc) (n : String) : Option MethodDesc :=
  methods.foldl (fun acc m => if m.Name = n then some m else acc) none

/-- A template engine whose parse and substitution both succeed. -/
def okEngine : TemplateEngine :=
  { parse := fun t => .ok t
    exec := fun _ _ => .ok "rendered" }

/-- A template engine whose parse step fails (malformed template body). -/
def failParseEngine : TemplateEngine :=
  { parse := fun _ => .error "template: route: unexpected EOF"
    exec := fun _ _ => .ok "rendered" }

/-- A template engine that parses but whose substitution fails. -/
def failExecEngine : TemplateEngine :=
  { parse := fun t => .ok t
    exec := fun _ _ => .error "template: route: executing failed" }

/-- A sample package configuration. -/
def pkgExample : PackageDesc :=
  { RequestType := "telegram.Update"
    ResponseType := "telegram.Message"
    ExtraDataType := "telegram.MethodExtraData"
    NewExtraDataFunc := "telegram.NewMethodExtraData" }

/-- A sample method descriptor named Foo. -/
def mdFoo : MethodDesc :=
  { Name := "Foo"
    OriginalName := "SvcFoo"
    Num := 0
    Request := "FooRequest"
    Reply := "FooResponse"
    Comment := ""
    Extra := [] }

/-- A second method descriptor sharing the name Foo. -/
def mdFooDup : MethodDesc :=
  { mdFoo with Num := 1, Request := "FooRequest2" }

/-- A method descriptor named Bar. -/
def mdBar : MethodDesc :=
  { mdFoo with Name := "Bar", OriginalName := "SvcBar" }

/-- A service descriptor whose two methods share the name Foo. -/
def svcDup : ServiceDesc :=
  { OptionsKey := "bot"
    ServiceType := "Svc"
    ServiceName := "x.v1.Svc"
    Methods := [mdFoo, mdFooDup]
    MethodSets := []
    Package := pkgExample }

/-- A service descriptor carrying a stale MethodSets entry for a name
that no longer occurs in Methods. -/
def svcStale : ServiceDesc :=
  { OptionsKey := "bot"
    ServiceType := "Svc"
    ServiceName := "x.v1.Svc"
    Methods := [mdFoo]
    MethodSets := [("Gone", mdBar)]
    Package := pkgExample }

/-- A sample file system for exercising ReplaceTemplateIfNeed: one
readable path and failure everywhere else. -/
def fsExample : String → Except String String :=
  fun p => if p = "custom.tmpl" then .ok "custom body" else .error "open: no such file"

/-- The sample annotation from the source's own comment block:
key bot with two extra entries. -/
def annBot : Annotation :=
  { key := "bot", extra := [("command", "start"), ("callback_query", "start")] }

/-- A sample annotated method (UpdateCount from the source comment). -/
def methUpdate : Method :=
  { name := "UpdateCount"
    input := "UpdateCountRequest"
    output := "UpdateCountResponse"
    comment := "test comment line1"
    annotation := some annBot }

/-- A sample method with no annotation block. -/
def methPlain : Method :=
  { name := "Plain"
    input := "PlainRequest"
    output := "PlainResponse"
    comment := ""
    annotation := none }

/-- A sample method whose annotation block has an empty key. -/
def methEmptyKey : Method :=
  { name := "EmptyKey"
    input := "EmptyKeyRequest"
    output := "EmptyKeyResponse"
    comment := ""
    annotation := some { key := "", extra := [("command", "x")] } }

/-- The sample MenuService holding one bot-annotated method, one
unannotated method and one empty-key method. -/
def svcMenu : Service :=
  { name := "MenuService"
    fullName := "bot.v1.MenuService"
    methods := [methUpdate, methPlain, methEmptyKey] }

/-- A sample descriptor set with one file holding MenuService. -/
def dsExample : List DescFile :=
  [{ services := [svcMenu] }]

/-- The ServiceDesc that building dsExample for key bot produces. -/
def sdMenuBot : ServiceDesc :=
  { OptionsKey := "bot"
    ServiceType := "MenuService"
    ServiceName := "bot.v1.MenuService"
    Methods := [toMethodDesc svcMenu 0 methUpdate annBot.extra]
    MethodSets := buildMethodSets [toMethodDesc svcMenu 0 methUpdate annBot.extra]
    Package := pkgExample }

/-! ### Supporting lemmas: association lists with Go-map semantics -/

theorem lookup_cons_pair {α : Type} (n k : String) (v : α) (l : List (String × α)) :
    List.lookup n ((k, v) :: l) = if n = k then some v else List.lookup n l := by
  by_cases h : n = k
  · have hb : (n == k) = true := beq_iff_eq.mpr h
    simp [List.lookup, hb, h]
  · have hb : (n == k) = false := beq_eq_false_iff_ne.mpr h
    simp [List.lookup, hb, h]

theorem lookup_insertAssoc {α : Type} (k n : String) (v : α) (l : List (String × α)) :
    List.lookup n (insertAssoc k v l) = if n = k then some v else List.lookup n l := by
  induction l with
  | nil =>
    by_cases h : n = k <;> simp [insertAssoc, lookup_cons_pair, h]
  | cons p rest ih =>
    obtain ⟨k', v'⟩ := p
    by_cases hk : k' = k
    · subst hk
      by_cases hn : n = k'
      · simp [insertAssoc, lookup_cons_pair, hn]
      · simp [insertAssoc, lookup_cons_pair, hn]
    · by_cases hn : n = k'
      · subst hn
        simp [insertAssoc, hk, lookup_cons_pair, Ne.symm hk]
      · simp [insertAssoc, hk, lookup_cons_pair, hn, ih]

theorem lookup_foldl_ins (n : String) :
    ∀ (l : List MethodDesc) (acc : List (String × MethodDesc)) (o : Option MethodDesc),
      List.lookup n acc = o →
      List.lookup n (l.foldl (fun acc m => insertAssoc m.Name m acc) acc)
        = l.foldl (fun o m => if m.Name = n then some m else o) o := by
  intro l
  induction l with
  | nil => intro acc o h; simpa using h
  | cons m ms ih =>
    intro acc o h
    rw [List.foldl_cons, List.foldl_cons]
    apply ih
    rw [lookup_insertAssoc]
    by_cases hn : n = m.Name
    · simp [hn]
    · have hn' : ¬ m.Name = n := fun hmn => hn hmn.symm
      simp [hn, hn', h]

theorem lookup_buildMethodSets (l : List MethodDesc) (n : String) :
    List.lookup n (buildMethodSets l) = lastWithName l n := by
  simpa [buildMethodSets, lastWithName] using lookup_foldl_ins n l [] none rfl

theorem foldl_last_isSome (n : String) :
    ∀ (l : List MethodDesc) (o : Option MethodDesc),
      ((l.foldl (fun o m => if m.Name = n then some m else o) o).isSome
        ↔ o.isSome ∨ ∃ m ∈ l, m.Name = n) := by
  intro l
  induction l with
  | nil => simp
  | cons m ms ih =>
    intro o
    rw [List.foldl_cons, ih]
    by_cases h : m.Name = n <;> simp [h]

theorem lastWithName_isSome (l : List MethodDesc) (n : String) :
    (lastWithName l n).isSome ↔ n ∈ l.map MethodDesc.Name := by
  rw [lastWithName, foldl_last_isSome]
  simp [eq_comm]

theorem foldl_last_some (n : String) :
    ∀ (l : List MethodDesc) (o : Option MethodDesc) (md : MethodDesc),
      l.foldl (fun o m => if m.Name = n then some m else o) o = some md →
      o = some md ∨ (md ∈ l ∧ md.Name = n) := by
  intro l
  induction l with
  | nil => intro o md h; exact Or.inl h
  | cons m ms ih =>
    intro o md h
    rw [List.foldl_cons] at h
    rcases ih _ md h with h' | h'
    · by_cases hm : m.Name = n
      · simp [hm] at h'
        subst h'
        exact Or.inr ⟨List.mem_cons_self _ _, hm⟩
      · simp [hm] at h'
        exact Or.inl h'
    · exact Or.inr ⟨List.mem_cons_of_mem _ h'.1, h'.2⟩

theorem lastWithName_some (l : List MethodDesc) (n : String) (md : MethodDesc)
    (h : lastWithName l n = some md) : md ∈ l ∧ md.Name = n := by
  rcases foldl_last_some n l none md h with h' | h'
  · exact absurd h' (by simp)
  · exact h'

theorem lastWithName_of_nodup (l : List MethodDesc)
    (hnd : (l.map MethodDesc.Name).Nodup) (m : MethodDesc) (hm : m ∈ l) :
    lastWithName l m.Name = some m := by
  have hs : (lastWithName l m.Name).isSome := by
    rw [lastWithName_isSome]
    exact List.mem_map_of_mem _ hm
  obtain ⟨md, hmd⟩ := Option.isSome_iff_exists.mp hs
  obtain ⟨hmem, hname⟩ := lastWithName_some l m.Name md hmd
  have heq : md = m := List.inj_on_of_nodup_map hnd hmem hm hname
  rw [hmd, heq]

theorem length_insertAssoc_of_lookup_none {α : Type} (k : String) (v : α)
    (l : List (String × α)) (h : List.lookup k l = none) :
    (insertAssoc k v l).length = l.length + 1 := by
  induction l with
  | nil => simp [insertAssoc]
  | cons p rest ih =>
    obtain ⟨k', v'⟩ := p
    rw [lookup_cons_pair] at h
    by_cases hk : k = k'
    · simp [hk] at h
    · simp only [hk, if_false] at h
      have hk' : ¬ k' = k := fun he => hk he.symm
      simp [insertAssoc, hk', ih h]

theorem length_foldl_ins_nodup :
    ∀ (l : List MethodDesc) (acc : List (String × MethodDesc)),
      (l.map MethodDesc.Name).Nodup →
      (∀ m ∈ l, List.lookup m.Name acc = none) →
      (l.foldl (fun acc m => insertAssoc m.Name m acc) acc).length = acc.length + l.length := by
  intro l
  induction l with
  | nil => intro acc _ _; simp
  | cons m ms ih =>
    intro acc hnd hnone
    rw [List.foldl_cons]
    have h1 : List.lookup m.Name acc = none := hnone m (List.mem_cons_self _ _)
    rw [List.map_cons, List.nodup_cons] at hnd
    have hnone' : ∀ m' ∈ ms, List.lookup m'.Name (insertAssoc m.Name m acc) = none := by
      intro m' hm'
      rw [lookup_insertAssoc]
      have hne : m'.Name ≠ m.Name := by
        intro he
        exact hnd.1 (he ▸ List.mem_map_of_mem _ hm')
      simp [hne, hnone m' (List.mem_cons_of_mem _ hm')]
    rw [ih _ hnd.2 hnone', length_insertAssoc_of_lookup_none _ _ _ h1]
    simp
    omega

theorem length_buildMethodSets_nodup (l : List MethodDesc)
    (hnd : (l.map MethodDesc.Name).Nodup) :
    (buildMethodSets l).length = l.length := by
  simpa [buildMethodSets] using length_foldl_ins_nodup l [] hnd (by simp)

/-! ### Supporting lemmas: case analysis of ServiceDesc.Execute -/

theorem Execute_parse_error (eng : TemplateEngine) (tmpl : String) (s : ServiceDesc)
    (e : String) (h : eng.parse tmpl = .error e) :
    ServiceDesc.Execute eng tmpl s =
      { svc := { s with MethodSets := buildMethodSets s.Methods }, text := "", err := some e } := by
  simp [ServiceDesc.Execute, h]

theorem Execute_exec_error (eng : TemplateEngine) (tmpl : String) (s : ServiceDesc)
    (t e : String) (h1 : eng.parse tmpl = .ok t)
    (h2 : eng.exec t { s with MethodSets := buildMethodSets s.Methods } = .error e) :
    ServiceDesc.Execute eng tmpl s =
      { svc := { s with MethodSets := buildMethodSets s.Methods }, text := "", err := some e } := by
  simp [ServiceDesc.Execute, h1, h2]

theorem Execute_ok (eng : TemplateEngine) (tmpl : String) (s : ServiceDesc)
    (t out : String) (h1 : eng.parse tmpl = .ok t)
    (h2 : eng.exec t { s with MethodSets := buildMethodSets s.Methods } = .ok out) :
    ServiceDesc.Execute eng tmpl s =
      { svc := { s with MethodSets := buildMethodSets s.Methods }, text := out, err := none } := by
  simp [ServiceDesc.Execute, h1, h2]

theorem Execute_svc (eng : TemplateEngine) (tmpl : String) (s : ServiceDesc) :
    (ServiceDesc.Execute eng tmpl s).svc = { s with MethodSets := buildMethodSets s.Methods } := by
  rcases hp : eng.parse tmpl with e | t
  · rw [Execute_parse_error eng tmpl s e hp]
  · rcases hx : eng.exec t { s with MethodSets := buildMethodSets s.Methods } with e | out
    · rw [Execute_exec_error eng tmpl s t e hp hx]
    · rw [Execute_ok eng tmpl s t out hp hx]

/-! ### Supporting lemmas: the spec-modelled Model Builder -/

theorem extract_some (m : Method) (key : String) (extras : List (String × String))
    (h : extract m = some (key, extras)) :
    ∃ a, m.annotation = some a ∧ a.key = key ∧ a.extra = extras ∧ key ≠ "" := by
  unfold extract at h
  rcases hann : m.annotation with _ | a
  · rw [hann] at h; simp at h
  · rw [hann] at h
    by_cases hke : a.key = ""
    · simp [hke] at h
    · simp only [hke, if_false] at h
      obtain ⟨h1, h2⟩ := Prod.mk.injEq .. ▸ Option.some.inj h
      exact ⟨a, rfl, h1, h2, h1 ▸ hke⟩

theorem mem_buildMethods (k : String) (svc : Service) :
    ∀ (ms : List Method) (st : List (String × Int)) (md : MethodDesc),
      md ∈ (buildMethods k svc st ms).1 →
      ∃ m ∈ ms, ∃ key extras, extract m = some (key, extras) ∧ key = k ∧
        ∃ num, md = toMethodDesc svc num m extras := by
  intro ms
  induction ms with
  | nil => intro st md h; simp [buildMethods] at h
  | cons m rest ih =>
    intro st md h
    rcases hx : extract m with _ | ⟨key, extras⟩
    · simp only [buildMethods, hx] at h
      obtain ⟨m', hm', r⟩ := ih st md h
      exact ⟨m', List.mem_cons_of_mem _ hm', r⟩
    · by_cases hk : key = k
      · simp only [buildMethods, hx, if_pos hk] at h
        rcases List.mem_cons.mp h with he | hmem
        · exact ⟨m, List.mem_cons_self _ _, key, extras, hx, hk,
            (assign st (svc.name ++ m.name)).1, he⟩
        · obtain ⟨m', hm', r⟩ := ih _ md hmem
          exact ⟨m', List.mem_cons_of_mem _ hm', r⟩
      · simp only [buildMethods, hx, if_neg hk] at h
        obtain ⟨m', hm', r⟩ := ih st md h
        exact ⟨m', List.mem_cons_of_mem _ hm', r⟩

theorem buildService_some (k : String) (pkg : PackageDesc) (st : List (String × Int))
    (svc : Service) (sd : ServiceDesc) (h : (buildService k pkg st svc).1 = some sd) :
    sd.OptionsKey = k ∧ sd.ServiceType = svc.name ∧ sd.ServiceName = svc.fullName ∧
    sd.Methods = (buildMethods k svc st svc.methods).1 ∧ sd.Methods ≠ [] ∧
    sd.MethodSets = buildMethodSets sd.Methods ∧ sd.Package = pkg := by
  unfold buildService at h
  by_cases he : (buildMethods k svc st svc.methods).1.isEmpty
  · simp [he] at h
  · rw [if_neg he] at h
    obtain rfl := (Option.some.inj h).symm
    refine ⟨rfl, rfl, rfl, rfl, ?_, rfl, rfl⟩
    intro hnil
    simp only [ServiceDesc.Methods] at hnil
    exact he (by simp [hnil])

theorem mem_buildServices (k : String) (pkg : PackageDesc) :
    ∀ (svcs : List Service) (st : List (String × Int)) (sd : ServiceDesc),
      sd ∈ (buildServices k pkg st svcs).1 →
      ∃ svc ∈ svcs, ∃ st', (buildService k pkg st' svc).1 = some sd := by
  intro svcs
  induction svcs with
  | nil => intro st sd h; simp [buildServices] at h
  | cons svc rest ih =>
    intro st sd h
    rcases hb : (buildService k pkg st svc).1 with _ | sd'
    · simp only [buildServices, hb] at h
      obtain ⟨svc', hsvc', r⟩ := ih _ sd h
      exact ⟨svc', List.mem_cons_of_mem _ hsvc', r⟩
    · simp only [buildServices, hb] at h
      rcases List.mem_cons.mp h with he | hmem
      · exact ⟨svc, List.mem_cons_self _ _, st, by rw [hb, he]⟩
      · obtain ⟨svc', hsvc', r⟩ := ih _ sd hmem
        exact ⟨svc', List.mem_cons_of_mem _ hsvc', r⟩

theorem buildMethods_nil_of_no_match (k : String) (svc : Service) :
    ∀ (ms : List Method) (st : List (String × Int)),
      (∀ m ∈ ms, matchesKey k m = false) →
      (buildMethods k svc st ms).1 = [] := by
  intro ms
  induction ms with
  | nil => intro st _; rfl
  | cons m rest ih =>
    intro st h
    rcases hx : extract m with _ | ⟨key, extras⟩
    · simp only [buildMethods, hx]
      exact ih st (fun m' hm' => h m' (List.mem_cons_of_mem _ hm'))
    · have hmk : matchesKey k m = false := h m (List.mem_cons_self _ _)
      rw [matchesKey, hx] at hmk
      have hne : key ≠ k := by simpa using hmk
      simp only [buildMethods, hx, if_neg hne]
      exact ih st (fun m' hm' => h m' (List.mem_cons_of_mem _ hm'))

theorem buildService_none_of_no_match (k : String) (pkg : PackageDesc)
    (svc : Service) (st : List (String × Int))
    (h : ∀ m ∈ svc.methods, matchesKey k m = false) :
    (buildService k pkg st svc).1 = none := by
  have hnil := buildMethods_nil_of_no_match k svc svc.methods st h
  simp [buildService, hnil]


/-! ### Supporting lemmas: the Name Disambiguator counter -/

theorem assignAll_getElem (c : String) :
    ∀ (reqs : List String) (st : List (String × Int)) (i : Nat),
      reqs[i]? = some c →
      (assignAll st reqs)[i]? =
        some ((List.lookup c st).getD 0 + (((reqs.take i).count c : Nat) : Int)) := by
  intro reqs
  induction reqs with
  | nil => intro st i h; simp at h
  | cons r rs ih =>
    intro st i h
    cases i with
    | zero =>
      rw [List.getElem?_cons_zero] at h
      obtain rfl := Option.some.inj h
      simp [assignAll, assign]
    | succ j =>
      rw [List.getElem?_cons_succ] at h
      rw [assignAll]
      simp only [List.getElem?_cons_succ]
      rw [ih _ j h]
      congr 1
      rw [List.take_succ_cons]
      by_cases hrc : r = c
      · subst hrc
        simp only [assign]
        rw [lookup_insertAssoc]
        simp [List.count_cons]
        ring
      · have hrc' : ¬ c = r := fun he => hrc he.symm
        simp only [assign]
        rw [lookup_insertAssoc]
        simp [hrc', List.count_cons, hrc]


/-! ### Claim theorems -/

/-- C1 (counterexample): on a ServiceDesc whose Methods list has two
entries named Foo, Execute leaves MethodSets with a single entry, so
len(MethodSets) differs from len(Methods). -/
theorem methodSets_length_counterexample :
    ¬ ((ServiceDesc.Execute okEngine "tmpl" svcDup).svc.MethodSets.length
        = (ServiceDesc.Execute okEngine "tmpl" svcDup).svc.Methods.length) := by
  decide

/-- C1 (amended): after Execute, whenever the names in Methods are
pairwise distinct, MethodSets is exactly the index of Methods by name:
looking up each method's name yields that method, and the sizes agree. -/
theorem methodSets_index_of_nodup_names (eng : TemplateEngine) (tmpl : String)
    (s : ServiceDesc) (hnd : (s.Methods.map MethodDesc.Name).Nodup) :
    (∀ m ∈ (ServiceDesc.Execute eng tmpl s).svc.Methods,
        List.lookup m.Name (ServiceDesc.Execute eng tmpl s).svc.MethodSets = some m) ∧
    (ServiceDesc.Execute eng tmpl s).svc.MethodSets.length
      = (ServiceDesc.Execute eng tmpl s).svc.Methods.length := by
  rw [Execute_svc]
  constructor
  · intro m hm
    simp only [ServiceDesc.Methods] at hm
    simp only [ServiceDesc.MethodSets]
    rw [lookup_buildMethodSets]
    exact lastWithName_of_nodup s.Methods hnd m hm
  · simp only [ServiceDesc.Methods, ServiceDesc.MethodSets]
    exact length_buildMethodSets_nodup s.Methods hnd

/-- C1 (witness): the amended theorem applied to a concrete
ServiceDesc with distinct method names. -/
theorem methodSets_index_of_nodup_names_witness :
    List.lookup mdFoo.Name (ServiceDesc.Execute okEngine "t" svcStale).svc.MethodSets
      = some mdFoo ∧
    (ServiceDesc.Execute okEngine "t" svcStale).svc.MethodSets.length
      = (ServiceDesc.Execute okEngine "t" svcStale).svc.Methods.length := by
  have h := methodSets_index_of_nodup_names okEngine "t" svcStale (by decide)
  exact ⟨h.1 mdFoo (by decide), h.2⟩

/-- C2 (counterexample): Execute does mutate the model — on a
ServiceDesc carrying a stale MethodSets entry, the MethodSets field
differs after a successful Execute call. -/
theorem execute_mutates_counterexample :
    ¬ ((ServiceDesc.Execute okEngine "t" svcStale).svc.MethodSets
        = svcStale.MethodSets) := by
  decide

/-- C2 (amended): Execute leaves every field of the ServiceDesc
unchanged except MethodSets, which it replaces with the index rebuilt
from Methods, whether rendering succeeds or fails. -/
theorem execute_frame_except_methodSets (eng : TemplateEngine) (tmpl : String)
    (s : ServiceDesc) :
    (ServiceDesc.Execute eng tmpl s).svc.OptionsKey = s.OptionsKey ∧
    (ServiceDesc.Execute eng tmpl s).svc.ServiceType = s.ServiceType ∧
    (ServiceDesc.Execute eng tmpl s).svc.ServiceName = s.ServiceName ∧
    (ServiceDesc.Execute eng tmpl s).svc.Methods = s.Methods ∧
    (ServiceDesc.Execute eng tmpl s).svc.Package = s.Package ∧
    (ServiceDesc.Execute eng tmpl s).svc.MethodSets = buildMethodSets s.Methods := by
  rw [Execute_svc]
  exact ⟨rfl, rfl, rfl, rfl, rfl, rfl⟩

/-- C9: Execute rebuilds MethodSets from scratch on every call: the
previous contents are discarded, lookup in the rebuilt index returns
the last element of Methods with the queried name, its domain is
exactly the set of names occurring in Methods, and a second Execute
yields the same MethodSets as the first. -/
theorem execute_rebuilds_methodSets (eng : TemplateEngine) (tmpl : String)
    (s : ServiceDesc) :
    (ServiceDesc.Execute eng tmpl s).svc.MethodSets = buildMethodSets s.Methods ∧
    (∀ n, List.lookup n (ServiceDesc.Execute eng tmpl s).svc.MethodSets
        = lastWithName s.Methods n) ∧
    (∀ n, (List.lookup n (ServiceDesc.Execute eng tmpl s).svc.MethodSets).isSome
        ↔ n ∈ s.Methods.map MethodDesc.Name) ∧
    (ServiceDesc.Execute eng tmpl ((ServiceDesc.Execute eng tmpl s).svc)).svc.MethodSets
      = (ServiceDesc.Execute eng tmpl s).svc.MethodSets := by
  refine ⟨?_, ?_, ?_, ?_⟩
  · rw [Execute_svc]
  · intro n
    rw [Execute_svc]
    simp only [ServiceDesc.MethodSets]
    exact lookup_buildMethodSets s.Methods n
  · intro n
    rw [Execute_svc]
    simp only [ServiceDesc.MethodSets]
    rw [lookup_buildMethodSets]
    exact lastWithName_isSome s.Methods n
  · rw [Execute_svc, Execute_svc]

/-- C9 (witness): the domain characterization at a concrete input — the
stale name Gone no longer occurs after Execute. -/
theorem execute_rebuilds_methodSets_witness :
    ((List.lookup "Gone" (ServiceDesc.Execute okEngine "t" svcStale).svc.MethodSets).isSome
      ↔ "Gone" ∈ svcStale.Methods.map MethodDesc.Name) :=
  (execute_rebuilds_methodSets okEngine "t" svcStale).2.2.1 "Gone"

/-- C10: even when Execute returns a non-nil error, the receiver's
MethodSets has already been replaced with the index rebuilt from
Methods — the mutation is not rolled back on error. -/
theorem methodSets_rebuilt_despite_error (eng : TemplateEngine) (tmpl : String)
    (s : ServiceDesc) (_h : (ServiceDesc.Execute eng tmpl s).err.isSome) :
    (ServiceDesc.Execute eng tmpl s).svc.MethodSets = buildMethodSets s.Methods := by
  rw [Execute_svc]

/-- C10 (witness): a failing parse still leaves the rebuilt index in
place at a concrete input. -/
theorem methodSets_rebuilt_despite_error_witness :
    (ServiceDesc.Execute failParseEngine "t" svcStale).err.isSome ∧
    (ServiceDesc.Execute failParseEngine "t" svcStale).svc.MethodSets
      = buildMethodSets svcStale.Methods :=
  ⟨by decide, methodSets_rebuilt_despite_error failParseEngine "t" svcStale (by decide)⟩

/-- C3: Execute returns a non-nil error exactly when the template body
fails to parse or the substitution over the (updated) ServiceDesc
fails, and in every error case the returned string is empty. -/
theorem execute_error_contract (eng : TemplateEngine) (tmpl : String) (s : ServiceDesc) :
    ((ServiceDesc.Execute eng tmpl s).err.isSome ↔
      (∃ e, eng.parse tmpl = .error e) ∨
      (∃ t, eng.parse tmpl = .ok t ∧
        ∃ e, eng.exec t { s with MethodSets := buildMethodSets s.Methods } = .error e)) ∧
    ((ServiceDesc.Execute eng tmpl s).err.isSome →
      (ServiceDesc.Execute eng tmpl s).text = "") := by
  rcases hp : eng.parse tmpl with e | t
  · rw [Execute_parse_error eng tmpl s e hp]
    constructor
    · simp [hp]
    · intro
      rfl
  · rcases hx : eng.exec t { s with MethodSets := buildMethodSets s.Methods } with e | out
    · rw [Execute_exec_error eng tmpl s t e hp hx]
      constructor
      · simp [hp, hx]
      · intro
        rfl
    · rw [Execute_ok eng tmpl s t out hp hx]
      constructor
      · simp [hp, hx]
      · simp

/-- C3 (witness): a failing substitution at a concrete input yields a
non-nil error and the empty string. -/
theorem execute_error_contract_witness :
    (ServiceDesc.Execute failExecEngine "t" svcStale).err.isSome ∧
    (ServiceDesc.Execute failExecEngine "t" svcStale).text = "" := by
  have h := execute_error_contract failExecEngine "t" svcStale
  exact ⟨by decide, h.2 (by decide)⟩

/-- C4: ReplaceTemplateIfNeed with an empty path returns nil and keeps
the template body; with a non-empty path it installs the file contents
on a successful read and returns the read error, body unchanged, on a
failed read. -/
theorem replaceTemplateIfNeed_contract (fs : String → Except String String)
    (path tmpl : String) :
    (path = "" → ReplaceTemplateIfNeed fs path tmpl = (tmpl, none)) ∧
    (∀ raw, path ≠ "" → fs path = .ok raw →
        ReplaceTemplateIfNeed fs path tmpl = (raw, none)) ∧
    (∀ e, path ≠ "" → fs path = .error e →
        ReplaceTemplateIfNeed fs path tmpl = (tmpl, some e)) := by
  refine ⟨?_, ?_, ?_⟩
  · intro h
    simp [ReplaceTemplateIfNeed, h]
  · intro raw h hfs
    simp [ReplaceTemplateIfNeed, h, hfs]
  · intro e h hfs
    simp [ReplaceTemplateIfNeed, h, hfs]

/-- C4 (witness): the three branches at a concrete file system. -/
theorem replaceTemplateIfNeed_contract_witness :
    ReplaceTemplateIfNeed fsExample "" "default" = ("default", none) ∧
    ReplaceTemplateIfNeed fsExample "custom.tmpl" "default" = ("custom body", none) ∧
    ReplaceTemplateIfNeed fsExample "missing" "default"
      = ("default", some "open: no such file") :=
  ⟨(replaceTemplateIfNeed_contract fsExample "" "default").1 rfl,
   (replaceTemplateIfNeed_contract fsExample "custom.tmpl" "default").2.1
     "custom body" (by decide) rfl,
   (replaceTemplateIfNeed_contract fsExample "missing" "default").2.2
     "open: no such file" (by decide) rfl⟩

/-- C5: rendering is deterministic — Execute on equal ServiceDesc
values with the same template body and engine returns the same text
and the same error. -/
theorem execute_deterministic (eng : TemplateEngine) (tmpl : String)
    (s1 s2 : ServiceDesc) (h : s1 = s2) :
    (ServiceDesc.Execute eng tmpl s1).text = (ServiceDesc.Execute eng tmpl s2).text ∧
    (ServiceDesc.Execute eng tmpl s1).err = (ServiceDesc.Execute eng tmpl s2).err := by
  subst h
  exact ⟨rfl, rfl⟩

/-- C5 (witness): determinism applied at a concrete input. -/
theorem execute_deterministic_witness :
    (ServiceDesc.Execute okEngine "t" svcStale).text
      = (ServiceDesc.Execute okEngine "t" svcStale).text ∧
    (ServiceDesc.Execute okEngine "t" svcStale).err
      = (ServiceDesc.Execute okEngine "t" svcStale).err :=
  execute_deterministic okEngine "t" svcStale svcStale rfl

/-- C6: within one run, the dedup number handed out for the i-th
request is the number of earlier requests bearing the same candidate
name — 0 for the first request of a name, then 1, 2, ... in strictly
increasing order, independently per name. -/
theorem assign_dedup_numbers (reqs : List String) (i : Nat) (c : String)
    (h : reqs[i]? = some c) :
    (assignAll [] reqs)[i]? = some (((reqs.take i).count c : Nat) : Int) := by
  simpa using assignAll_getElem c reqs [] i h

/-- C6 (witness): a concrete request sequence with a triple collision
receives 0, then 1, then 2. -/
theorem assign_dedup_numbers_witness :
    (assignAll [] ["MenuServiceGet", "OtherSvcGet", "MenuServiceGet", "MenuServiceGet"])[3]?
      = some 2 := by
  simpa using assign_dedup_numbers
    ["MenuServiceGet", "OtherSvcGet", "MenuServiceGet", "MenuServiceGet"] 3
    "MenuServiceGet" (by decide)

/-- C7: every produced route group carries a non-empty key, and every
method in it stems from a source method whose annotation block is
present with a non-empty key equal to the group's key — methods with
no annotation or an empty key never appear. -/
theorem unannotated_methods_excluded (ds : List DescFile) (k : String)
    (pkg : PackageDesc) (sd : ServiceDesc) (hsd : sd ∈ build ds k pkg) :
    sd.OptionsKey ≠ "" ∧
    ∀ md ∈ sd.Methods, ∃ m ∈ allMethods ds, ∃ a, m.annotation = some a ∧
      a.key ≠ "" ∧ a.key = sd.OptionsKey ∧ md.Name = m.name ∧
      md.Request = m.input ∧ md.Reply = m.output := by
  simp only [build] at hsd
  obtain ⟨svc, hsvc, st', hbs⟩ := mem_buildServices k pkg _ [] sd hsd
  obtain ⟨hk, _, _, hms, hne, _, _⟩ := buildService_some k pkg st' svc sd hbs
  have trace : ∀ md ∈ sd.Methods, ∃ m ∈ svc.methods, ∃ key extras,
      extract m = some (key, extras) ∧ key = k ∧
      ∃ num, md = toMethodDesc svc num m extras := by
    intro md hmd
    rw [hms] at hmd
    exact mem_buildMethods k svc svc.methods st' md hmd
  constructor
  · obtain ⟨md, hmd⟩ := List.exists_mem_of_ne_nil _ hne
    obtain ⟨m, _, key, extras, hex, hkey, _⟩ := trace md hmd
    obtain ⟨a, _, hak, _, hkne⟩ := extract_some m key extras hex
    rw [hk, ← hkey]
    exact hkne
  · intro md hmd
    obtain ⟨m, hm, key, extras, hex, hkey, num, hmdeq⟩ := trace md hmd
    obtain ⟨a, hann, hak, hax, hkne⟩ := extract_some m key extras hex
    refine ⟨m, ?_, a, hann, ?_, ?_, ?_, ?_, ?_⟩
    · unfold allMethods
      exact List.mem_flatMap.mpr ⟨svc, hsvc, hm⟩
    · rw [hak]
      exact hkne
    · rw [hak, hkey, hk]
    · simp [hmdeq, toMethodDesc]
    · simp [hmdeq, toMethodDesc]
    · simp [hmdeq, toMethodDesc]

/-- C7 (witness): the concrete MenuService route group for key bot,
whose unannotated and empty-key methods were excluded. -/
theorem unannotated_methods_excluded_witness :
    sdMenuBot ∈ build dsExample "bot" pkgExample ∧ sdMenuBot.OptionsKey ≠ "" := by
  have h := unannotated_methods_excluded dsExample "bot" pkgExample sdMenuBot (by decide)
  exact ⟨by decide, h.1⟩

/-- C8: every produced ServiceDesc has the pass's routing key and all
its methods stem from methods annotated with that key; a service none
of whose methods matches the key contributes no ServiceDesc. -/
theorem key_partitioning (ds : List DescFile) (k : String) (pkg : PackageDesc) :
    (∀ sd ∈ build ds k pkg, sd.OptionsKey = k ∧
      ∀ md ∈ sd.Methods, ∃ m ∈ allMethods ds, ∃ a, m.annotation = some a ∧
        a.key = k ∧ md.Name = m.name) ∧
    (∀ (svc : Service) (st : List (String × Int)),
      (∀ m ∈ svc.methods, matchesKey k m = false) →
      (buildService k pkg st svc).1 = none) := by
  constructor
  · intro sd hsd
    simp only [build] at hsd
    obtain ⟨svc, hsvc, st', hbs⟩ := mem_buildServices k pkg _ [] sd hsd
    obtain ⟨hk, _, _, hms, _, _, _⟩ := buildService_some k pkg st' svc sd hbs
    refine ⟨hk, ?_⟩
    intro md hmd
    rw [hms] at hmd
    obtain ⟨m, hm, key, extras, hex, hkey, num, hmdeq⟩ :=
      mem_buildMethods k svc svc.methods st' md hmd
    obtain ⟨a, hann, hak, _, _⟩ := extract_some m key extras hex
    refine ⟨m, ?_, a, hann, by rw [hak, hkey], by simp [hmdeq, toMethodDesc]⟩
    unfold allMethods
    exact List.mem_flatMap.mpr ⟨svc, hsvc, hm⟩
  · intro svc st h
    exact buildService_none_of_no_match k pkg svc st h

/-- C8 (witness): the bot group carries key bot, and MenuService
contributes nothing to an http pass since none of its methods matches
that key. -/
theorem key_partitioning_witness :
    sdMenuBot.OptionsKey = "bot" ∧ (buildService "http" pkgExample [] svcMenu).1 = none := by
  have h1 := (key_partitioning dsExample "bot" pkgExample).1 sdMenuBot (by decide)
  have h2 := (key_partitioning dsExample "http" pkgExample).2 svcMenu [] (by decide)
  exact ⟨h1.1, h2⟩


end Route
